import Mathlib

/-!
# ClawScope (openclaw-clawscope) — verification of spec claims

Shallow embedding of the normalization / aggregation layer of the ClawScope
dashboard (TypeScript), together with proofs settling the claims of the
specification against the code.

Components modelled (each definition carries a pointer to its source):

* JS string primitives used by the code (`\s` whitespace class, `trim`,
  `replace(/\s+/g,' ')`, `slice`, substring search, ANSI stripping);
* `buildSnippet` — offline-sqlite-backend.ts (concatenated into
  test-minimal.mjs in this snapshot);
* the lexical / hybrid result mapping of `OfflineSqliteSearchBackend`;
* the `/activity` and `/timeline-data` log-line classifiers (frontend.ts);
* the `/timeline-data` aggregator of frontend-v2 (src/unnamed/part_002);
* the client-side timeline merge of `loadTimeline` (frontend.ts);
* `formatSchedule`, the `/tasks`, `/sessions`, `/activity` and
  `/settings/save` handlers of frontend.ts.

External collaborators (the memory engine, `JSON.parse`, `Date`, the
companion service and the CLI) are modelled as parameters / oracles: the
code under verification only routes their results.
-/

namespace ClawScope

/-! ## JS string primitives

The code relies on JavaScript string semantics.  Strings are modelled as
Lean `String` (a list of characters); operations are defined on `List Char`
and lifted.  All inputs of interest are BMP text, so code-unit vs
code-point distinctions do not arise.
-/

/-- JS `\s` whitespace class (also the set trimmed by `String.prototype.trim`):
WhiteSpace ∪ LineTerminator per ECMA-262. -/
def jsWs (c : Char) : Bool :=
  let n := c.toNat
  n = 0x9 || n = 0xa || n = 0xb || n = 0xc || n = 0xd || n = 0x20 ||
  n = 0xa0 || n = 0x1680 || (0x2000 ≤ n && n ≤ 0x200a) ||
  n = 0x2028 || n = 0x2029 || n = 0x202f || n = 0x205f ||
  n = 0x3000 || n = 0xfeff

/-- `text.replace(/\s+/g, ' ')` on a character list: every maximal run of
JS whitespace becomes a single space.  Of two adjacent whitespace
characters the first is dropped, so each run contributes exactly one `' '`. -/
def collapseWs : List Char → List Char
  | [] => []
  | [c] => if jsWs c then [' '] else [c]
  | c :: d :: rest =>
    if jsWs c && jsWs d then collapseWs (d :: rest)
    else (if jsWs c then ' ' else c) :: collapseWs (d :: rest)

/-- `s.trim()` on a character list (JS trims the `\s` set on both ends). -/
def trimWs (l : List Char) : List Char :=
  ((l.dropWhile jsWs).reverse.dropWhile jsWs).reverse

/-- JS `String.prototype.trim`. -/
def jsTrim (s : String) : String :=
  ⟨trimWs s.data⟩

/-- Does `needle` occur as a contiguous sublist of `hay`? -/
def infixOf (needle : List Char) : List Char → Bool
  | [] => needle.isEmpty
  | c :: rest => needle.isPrefixOf (c :: rest) || infixOf needle rest

/-- JS `haystack.includes(needle)`. -/
def jsIncludes (hay needle : String) : Bool :=
  infixOf needle.data hay.data

/-- JS `s.slice(0, n)` for a non-negative `n`. -/
def jsSlice0 (s : String) (n : Nat) : String :=
  ⟨s.data.take n⟩

/-- JS `s.startsWith(p)`. -/
def jsStartsWith (s p : String) : Bool :=
  p.data.isPrefixOf s.data

/-- Lexicographic `≤` on character lists by code point (= JS code-unit
order for BMP text). -/
def charListLe : List Char → List Char → Bool
  | [], _ => true
  | _ :: _, [] => false
  | a :: as, b :: bs =>
    if a.toNat < b.toNat then true
    else if b.toNat < a.toNat then false
    else charListLe as bs

/-- JS `a >= b` on strings: lexicographic comparison. -/
def jsStrGe (a b : String) : Bool :=
  charListLe b.data a.data

/-- JS `a || b` for strings: `a` when non-empty (truthy), else `b`. -/
def jsOrS (a b : String) : String :=
  if a = "" then b else a

/-- JS `a || b` where `a` is an optional string (absent = `undefined`,
falsy): the string when present and non-empty, else `b`. -/
def jsOrOptS (a : Option String) (b : String) : String :=
  match a with
  | some s => jsOrS s b
  | none => b

/-! ## Search Backend Adapter — `buildSnippet`

Source: `buildSnippet` in offline-sqlite-backend.ts (test-minimal.mjs
lines 162–166):

```
function buildSnippet(text: string, maxLen = 220): string {
  const singleLine = text.replace(/\s+/g, ' ').trim();
  if (singleLine.length <= maxLen) return singleLine;
  return singleLine.slice(0, maxLen) + '…';
}
```
-/

/-- The whitespace-collapsed, trimmed single line the snippet is built from. -/
def singleLineOf (text : String) : String :=
  ⟨trimWs (collapseWs text.data)⟩

/-- `buildSnippet` with the default `maxLen = 220`. -/
def buildSnippet (text : String) : String :=
  let singleLine := singleLineOf text
  if singleLine.length ≤ 220 then singleLine
  else jsSlice0 singleLine 220 ++ "…"

example : buildSnippet "  a   b\t c " = "a b c" := by decide

/-! ## Activity Log Classifier

Sources: the log-line loop of the `/timeline-data` handler
(frontend.ts 1684–1755), the `/activity` handler loop
(frontend.ts 1556–1606) and the `clawscope_get_activity` tool
(mcp-server.ts 116–166).  The three are near-identical; the first two are
modelled below.  `JSON.parse` is an external builtin and enters as a
`parse` oracle; a `none` result models a thrown `SyntaxError`, which the
code catches and turns into "skip this line".
-/

/-- JS `\w` word character: `[A-Za-z0-9_]`. -/
def wordChar (c : Char) : Bool :=
  ('a' ≤ c && c ≤ 'z') || ('A' ≤ c && c ≤ 'Z') || ('0' ≤ c && c ≤ '9') || c = '_'

/-- Maximal (greedy) leading run of word characters. -/
def takeWordRun : List Char → List Char
  | [] => []
  | c :: rest => if wordChar c then c :: takeWordRun rest else []

/-- `message.match(/pre(\w+)/)`: leftmost occurrence of the literal `pre`
followed by at least one word character; returns the greedy capture.
Used with `pre = "tool="` and `pre = "new="`. -/
def findCapture (pre : List Char) : List Char → Option (List Char)
  | [] => none
  | c :: rest =>
    if pre.isPrefixOf (c :: rest) then
      let run := takeWordRun ((c :: rest).drop pre.length)
      if run.isEmpty then findCapture pre rest else some run
    else findCapture pre rest

/-- `message.match(/tool (start|end)/)`: the capture of the leftmost match
(alternation tries `start` before `end` at each position). -/
def findToolAction : List Char → Option String
  | [] => none
  | c :: rest =>
    if "tool start".data.isPrefixOf (c :: rest) then some "start"
    else if "tool end".data.isPrefixOf (c :: rest) then some "end"
    else findToolAction rest

/-- A parsed JSON log line, with the fields the classifiers read.  Absent
fields (`undefined`) are `none`; the code defaults them with `||`. -/
structure LogLine where
  type : Option String
  time : String
  subsystem : Option String
  message : Option String
  level : Option String
deriving DecidableEq, Repr

/-- A normalized timeline/activity event.  The opaque `details` payload
carried by some producers (the raw upstream record, for detail views) is
not modelled; no claim mentions it.  `level` is `none` where the producer
does not set the field. -/
structure TimelineEvent where
  id : String
  ts : String
  kind : String
  summary : String
  level : Option String
deriving DecidableEq, Repr

/-- The benign warning the alert rule ignores. -/
def benignMsg : String := "Config was last written by a newer OpenClaw"

/-- Log-line classifier of the `/timeline-data` handler
(frontend.ts 1687–1753; the handler's `since` window filter is applied
before these rules and is not part of the classifier).  Rules in order:
tool, session, memory, cron, alert; anything else is dropped. -/
def classifyTimeline (l : LogLine) : List TimelineEvent :=
  if l.type ≠ some "log" then []
  else
    let subsystem := jsOrOptS l.subsystem ""
    let message := jsOrOptS l.message ""
    let level := jsOrOptS l.level "debug"
    if subsystem = "agent/embedded" && jsIncludes message "tool " then
      match findCapture "tool=".data message.data, findToolAction message.data with
      | some name, some act =>
        [{ id := l.time ++ "-" ++ ⟨name⟩, ts := l.time, kind := "tool",
           summary := (if act = "start" then "▶ " else "✓ ") ++ ⟨name⟩,
           level := some level }]
      | _, _ => []
    else if subsystem = "diagnostic" && jsIncludes message "session state" then
      match findCapture "new=".data message.data with
      | some st =>
        [{ id := l.time ++ "-session", ts := l.time, kind := "session",
           summary := "Session " ++ ⟨st⟩, level := some level }]
      | none => []
    else if subsystem = "memory" || jsIncludes message "memory"
        || jsIncludes message "Memory" then
      [{ id := l.time ++ "-memory", ts := l.time, kind := "memory",
         summary := jsSlice0 message 80, level := some level }]
    else if subsystem = "cron" || jsIncludes message "cron" then
      [{ id := l.time ++ "-cron", ts := l.time, kind := "cron",
         summary := jsSlice0 message 60, level := some level }]
    else if (level = "warn" || level = "error") && !jsIncludes message benignMsg then
      [{ id := l.time ++ "-alert", ts := l.time, kind := "alert",
         summary := jsSlice0 message 80, level := some level }]
    else []

/-- Log-line classifier of the `/activity` handler (frontend.ts 1557–1605).
Differences from `classifyTimeline`: the type guard is lenient
(`parsed.type && parsed.type !== 'log'` skips), there is no memory rule,
and the alert id suffix is `-warn`. -/
def classifyActivity (l : LogLine) : List TimelineEvent :=
  if (match l.type with
      | some t => t ≠ "" && t ≠ "log"
      | none => false) then []
  else
    let subsystem := jsOrOptS l.subsystem ""
    let message := jsOrOptS l.message ""
    let level := jsOrOptS l.level "debug"
    if subsystem = "agent/embedded" && jsIncludes message "tool " then
      match findCapture "tool=".data message.data, findToolAction message.data with
      | some name, some act =>
        [{ id := l.time ++ "-" ++ ⟨name⟩, ts := l.time, kind := "tool",
           summary := (if act = "start" then "▶ " else "✓ ") ++ ⟨name⟩,
           level := some level }]
      | _, _ => []
    else if subsystem = "diagnostic" && jsIncludes message "session state" then
      match findCapture "new=".data message.data with
      | some st =>
        [{ id := l.time ++ "-session", ts := l.time, kind := "session",
           summary := "Session " ++ ⟨st⟩, level := some level }]
      | none => []
    else if subsystem = "cron" || jsIncludes message "cron" then
      [{ id := l.time ++ "-cron", ts := l.time, kind := "cron",
         summary := jsSlice0 message 60, level := some level }]
    else if (level = "warn" || level = "error") && !jsIncludes message benignMsg then
      [{ id := l.time ++ "-warn", ts := l.time, kind := "alert",
         summary := jsSlice0 message 80, level := some level }]
    else []

/-- Per-raw-line step shared by both handlers
(`if (!line.trim() || !line.startsWith('{')) continue;` followed by a
`try { JSON.parse … } catch {}`): blank or non-`{` lines are skipped, a
parse failure is swallowed, otherwise the line is classified. -/
def classifyRawWith (classify : LogLine → List TimelineEvent)
    (parse : String → Option LogLine) (line : String) : List TimelineEvent :=
  if jsTrim line = "" || !jsStartsWith line "\x7b" then []
  else
    match parse line with
    | none => []
    | some l => classify l

example :
    classifyTimeline
      { type := some "log", time := "2026-02-03T04:05:06.000Z",
        subsystem := some "cron", message := some "cron job X ran",
        level := some "info" } =
    [{ id := "2026-02-03T04:05:06.000Z-cron", ts := "2026-02-03T04:05:06.000Z",
       kind := "cron", summary := "cron job X ran", level := some "info" }] := by
  decide

example :
    classifyTimeline
      { type := some "log", time := "t1",
        subsystem := some "agent/embedded",
        message := some "tool start tool=browser args=3",
        level := some "info" } =
    [{ id := "t1-browser", ts := "t1", kind := "tool",
       summary := "▶ browser", level := some "info" }] := by
  decide

/-! ## Search Backend Adapter — `OfflineSqliteSearchBackend`

Source: offline-sqlite-backend.ts (test-minimal.mjs lines 56–160).  The
memory engine (`openDb` / `initSchema` / `searchItems` / `hybridSearch`)
is an external library; its result rows enter as oracle functions and the
calls the adapter makes are recorded in a trace.  Engine scores are JS
numbers carried through untouched; they are modelled as integers since no
claim computes with them.
-/

/-- An engine result row's `item` (`(r as any).item ?? (r as any)`; the
`??` fallback to the flat shape is resolved by the oracle).  `id` is the
sqlite integer row id; `String(item.id)` is its decimal rendering. -/
structure EngineItem where
  id : Int
  text : Option String
  title : Option String
  source : Option String
  created_at : Option String
  tags : Option String
  source_id : Option String
deriving DecidableEq, Repr

/-- A lexical engine result (`searchItems(...).results` element). -/
structure LexResult where
  item : EngineItem
  score : Option Int
  lexicalScore : Option Int
deriving DecidableEq, Repr

/-- A hybrid engine result (`hybridSearch(...)` element). -/
structure HybridResult where
  item : EngineItem
  score : Option Int
  lexicalScore : Option Int
  semanticScore : Option Int
deriving DecidableEq, Repr

/-- The `payload` attached to every mapped `SearchItem`
(`{ memory_id, text, tags, source, source_id }`, with `?? null` giving
`none`). -/
structure Payload where
  memory_id : Int
  text : String
  tags : Option String
  source : Option String
  source_id : Option String
deriving DecidableEq, Repr

/-- A normalized search result (search.ts `SearchItem`). -/
structure SearchItem where
  id : String
  kind : String
  source : Option String
  title : Option String
  snippet : String
  score : Int
  score_fts : Option Int
  score_embed : Option Int
  created_at : Option String
  payload : Payload
deriving DecidableEq, Repr

/-- The per-row mapping of `searchLexical` (lines 95–117). -/
def mapLexical (r : LexResult) : SearchItem :=
  let text := r.item.text.getD ""
  { id := toString r.item.id
    kind := "memory"
    source := some (r.item.source.getD "openclaw")
    title := r.item.title
    snippet := buildSnippet text
    score := ((r.score).orElse (fun _ => r.lexicalScore)).getD 0
    score_fts := (r.lexicalScore).orElse (fun _ => r.score)
    score_embed := none
    created_at := r.item.created_at
    payload := { memory_id := r.item.id, text := text, tags := r.item.tags,
                 source := r.item.source, source_id := r.item.source_id } }

/-- The per-row mapping of `searchHybrid` (lines 136–158). -/
def mapHybrid (r : HybridResult) : SearchItem :=
  let text := r.item.text.getD ""
  { id := toString r.item.id
    kind := "memory"
    source := some (r.item.source.getD "openclaw")
    title := r.item.title
    snippet := buildSnippet text
    score := (r.score).getD 0
    score_fts := r.lexicalScore
    score_embed := r.semanticScore
    created_at := r.item.created_at
    payload := { memory_id := r.item.id, text := text, tags := r.item.tags,
                 source := r.item.source, source_id := r.item.source_id } }

/-- One engine invocation, for the call trace of `search`. -/
inductive EngineOp where
  | openDb
  | initSchema
  | searchItemsOp
  | hybridSearchOp
deriving DecidableEq, Repr

/-- A search.ts `SearchRequest` (the fields `search` reads). -/
structure SearchRequest where
  query : String
  mode : Option String
  limit : Option Nat
  k : Option Nat
deriving Repr

/-- `OfflineSqliteSearchBackend.search` (lines 72–89), with the backend's
default configuration (`mode hybrid / topK 20 / candidates 80`).
`lexEngine query limit` and `hybEngine query topK candidates` stand for
the rows `searchItems` / `hybridSearch` would return; the second
component of the result is the trace of engine calls made.  The hybrid
path calls `searchItems` once to obtain the escaped query (line 129)
before `hybridSearch`. -/
def search (lexEngine : String → Nat → List LexResult)
    (hybEngine : String → Nat → Nat → List HybridResult)
    (req : SearchRequest) : List SearchItem × List EngineOp :=
  let mode := req.mode.getD "hybrid"
  let limit := req.limit.getD 20
  let candidates := req.k.getD 80
  let query := jsTrim req.query
  if query = "" then ([], [])
  else if mode = "lexical" then
    ((lexEngine query limit).map mapLexical,
     [.openDb, .initSchema, .searchItemsOp])
  else
    ((hybEngine query limit candidates).map mapHybrid,
     [.openDb, .initSchema, .searchItemsOp, .hybridSearchOp])

/-! ## Task schedule formatting and the `/tasks` handler

Sources: `formatSchedule` (frontend.ts 1353–1362), `fetchTasksFromPlugin`
(1364–1387), and the `/tasks` handler with its CLI fallback (1619–1655).
-/

/-- A raw `{kind, expr, everyMs, at}` schedule descriptor as found on an
upstream job.  A JS falsy `schedule` value is `none`. -/
structure RawSchedule where
  kind : Option String
  expr : Option String
  everyMs : Option Int
  atTime : Option String
deriving DecidableEq, Repr

/-- JS `Math.round(v / d)` for integer `v` and positive integer `d`:
`Math.round x = ⌊x + 1/2⌋` (halves round toward +∞). -/
def jsRoundDiv (v d : Int) : Int :=
  Int.fdiv (2 * v + d) (2 * d)

/-- `formatSchedule` (frontend.ts 1353–1362).  `schedule.at` is the
`atTime` field. -/
def formatSchedule (s : Option RawSchedule) : String :=
  match s with
  | none => "unknown"
  | some sch =>
    if sch.kind = some "cron" then jsOrOptS sch.expr "cron"
    else if sch.kind = some "every" then
      let mins := jsRoundDiv (sch.everyMs.getD 0) 60000
      if mins ≠ 0 then "every " ++ toString mins ++ "min" else "every"
    else if sch.kind = some "at" then
      match sch.atTime with
      | some a => if a ≠ "" then "once at " ++ a else "once"
      | none => "once"
    else "unknown"

/-- JS `v || null` on an optional string: empty string becomes `null`. -/
def jsOrNull (o : Option String) : Option String :=
  match o with
  | some s => if s = "" then none else some s
  | none => none

/-- An upstream cron job as read by the handlers (fields of
`fetchTasksFromPlugin` and of the CLI fallback). -/
structure UpJob where
  id : String
  name : String
  enabled : Option Bool
  schedule : Option RawSchedule
  nextRunAt : Option String
  agentId : Option String
  owner : Option String
  kind : Option String
  description : Option String
  payloadSummary : Option String
deriving DecidableEq, Repr

/-- A task item produced by the plugin path of `/tasks`. -/
structure TaskView where
  id : String
  name : String
  enabled : Bool
  schedule : String
  nextRun : Option String
  agentId : Option String
  kind : Option String
  description : Option String
  payloadSummary : Option String
deriving DecidableEq, Repr

/-- `fetchTasksFromPlugin`'s job mapping (frontend.ts 1373–1383). -/
def mapPluginJob (j : UpJob) : TaskView :=
  { id := j.id
    name := j.name
    enabled := j.enabled ≠ some false
    schedule := formatSchedule j.schedule
    nextRun := jsOrNull j.nextRunAt
    agentId := jsOrNull (some (jsOrOptS j.agentId (jsOrOptS j.owner "")))
    kind := j.kind
    description := j.description
    payloadSummary := j.payloadSummary }

/-- A task item produced by the CLI fallback path of `/tasks`; its inline
schedule expression can produce `undefined` (`none`). -/
structure CliTaskView where
  id : String
  name : String
  enabled : Bool
  schedule : Option String
  nextRun : Option String
  agentId : Option String
deriving DecidableEq, Repr

/-- The `/tasks` CLI-fallback job mapping (frontend.ts 1635–1644).  Its
inline schedule conditional differs from `formatSchedule`: a cron kind
passes `expr` through unchanged (possibly `undefined`), an every kind
never falls back to `"every"`, and a missing `at` interpolates as the
string `"undefined"`. -/
def mapCliJob (j : UpJob) : CliTaskView :=
  { id := j.id
    name := j.name
    enabled := j.enabled ≠ some false
    schedule :=
      match j.schedule with
      | some sch =>
        if sch.kind = some "cron" then sch.expr
        else if sch.kind = some "every" then
          some ("every " ++ toString (jsRoundDiv (sch.everyMs.getD 0) 60000) ++ "min")
        else if sch.kind = some "at" then
          some ("once at " ++ sch.atTime.getD "undefined")
        else some "unknown"
      | none => some "unknown"
    nextRun := jsOrNull j.nextRunAt
    agentId := j.agentId }

/-- Response of the `/tasks` handler: a 200 JSON list from one of the two
paths, or an HTTP 500 `{error: msg}`. -/
inductive TasksResp where
  | okPlugin (items : List TaskView)
  | okCli (items : List CliTaskView)
  | err (msg : String)
deriving DecidableEq, Repr

/-- The `/tasks` handler (frontend.ts 1619–1655).  `plugin` is the outcome
of `fetchTasksFromPlugin` (an `error` covers timeout, non-ok status and
bad JSON); `cli` is the outcome of the `openclaw cron list --json`
pipeline (exec + ANSI strip + JSON extraction + `data.jobs || []`), an
`error` carrying the thrown message.  When both fail the handler sets
status 500 with `{ error: e?.message || err?.message || 'tasks failed' }`. -/
def tasksHandler (plugin : Except String (List UpJob))
    (cli : Except String (List UpJob)) : TasksResp :=
  match plugin with
  | .ok jobs => .okPlugin (jobs.map mapPluginJob)
  | .error perr =>
    match cli with
    | .ok cjobs => .okCli (cjobs.map mapCliJob)
    | .error cerr => .err (jsOrS cerr (jsOrS perr "tasks failed"))

/-! ## `/sessions` handler and its cache

Source: frontend.ts 34–37 (cache slots and TTL) and 1447–1483 (handler).
JSON values are modelled structurally to capture the JS truthiness test
`if (lastSessionsJson && now - lastSessionsAt < SESSIONS_TTL_MS)`.
-/

/-- A JSON value (as produced by `resp.json()` / `JSON.parse`). -/
inductive JsValue where
  | null
  | bool (b : Bool)
  | num (n : Int)
  | str (s : String)
  | arr (elems : List JsValue)
  | obj (fields : List (String × JsValue))

/-- JS truthiness of a JSON value (every array or object is truthy;
`NaN` is not modelled). -/
def jsTruthy : JsValue → Bool
  | .null => false
  | .bool b => b
  | .num n => n ≠ 0
  | .str s => s ≠ ""
  | .arr _ => true
  | .obj _ => true

/-- The module-level session cache
(`let lastSessionsJson: any = null; let lastSessionsAt = 0`). -/
structure SessionsCache where
  lastSessionsJson : JsValue
  lastSessionsAt : Int

/-- The initial cache state. -/
def initialSessionsCache : SessionsCache :=
  { lastSessionsJson := .null, lastSessionsAt := 0 }

/-- `SESSIONS_TTL_MS = 15 * 60 * 1000`. -/
def SESSIONS_TTL_MS : Int := 15 * 60 * 1000

/-- An upstream invocation made by the `/sessions` handler. -/
inductive SrcCall where
  | plugin
  | cli
deriving DecidableEq, Repr

/-- The `/sessions` handler (frontend.ts 1447–1483).  `now = Date.now()`;
`plugin` is the outcome of `fetchSessionsFromPlugin`, `cli` that of the
`openclaw sessions --json` pipeline (`none` = threw).  Returns the JSON
body (always HTTP 200: both sources failing answers `[]`), the new cache
state, and the upstream calls performed. -/
def sessionsHandler (st : SessionsCache) (now : Int)
    (plugin : Option JsValue) (cli : Option JsValue) :
    JsValue × SessionsCache × List SrcCall :=
  if jsTruthy st.lastSessionsJson && now - st.lastSessionsAt < SESSIONS_TTL_MS then
    (st.lastSessionsJson, st, [])
  else
    match plugin with
    | some data => (data, ⟨data, now⟩, [.plugin])
    | none =>
      match cli with
      | some data => (data, ⟨data, now⟩, [.plugin, .cli])
      | none => (.arr [], st, [.plugin, .cli])

example :
    sessionsHandler ⟨.arr [.str "s1"], 0⟩ 60000 (some .null) none =
      (.arr [.str "s1"], ⟨.arr [.str "s1"], 0⟩, []) := by rfl

example :
    (sessionsHandler ⟨.null, 0⟩ 60000 (some .null) none).2.2 = [.plugin] := by
  rfl

/-! ## `/activity` handler (frontend.ts 1523–1616)

The handler fetches pre-structured activity from the companion service
(shapes: a JSON array, `{lines: [...]}` or `{logs: [...]}`), falls back
to `openclaw logs --json --limit 100` when no lines result, strips ANSI
escapes, classifies each line, and answers the last 30 events in reversed
order.  Every fallible step of the body sits inside its own `try/catch`
(the plugin fetch, the exec — whose rejection carries no `stdout`, so
`e?.stdout || ''` yields `''` — and the per-line `JSON.parse`), so the
outer 500 branch is unreachable and the response is always a 200 JSON
array.
-/

/-- Recognize the tail of an ANSI escape after `\x1b`: `[` then digits or
`;` then `m`; returns the remainder after the sequence. -/
def ansiTail (l : List Char) : Option (List Char) :=
  match l with
  | c :: rest =>
    if c = '[' then
      match rest.dropWhile (fun d => d.isDigit || d = ';') with
      | m :: r => if m = 'm' then some r else none
      | [] => none
    else none
  | [] => none

/-- Worker for `stripAnsi`; the fuel only discharges termination and is
exact, since every step consumes at least one character (`ansiTail`
returns a strict suffix of its argument). -/
def stripAnsiGo : Nat → List Char → List Char
  | 0, _ => []
  | _, [] => []
  | fuel + 1, c :: rest =>
    if c = '\x1b' then
      match ansiTail rest with
      | some r => stripAnsiGo fuel r
      | none => c :: stripAnsiGo fuel rest
    else c :: stripAnsiGo fuel rest

/-- `s.replace(/\x1b\[[0-9;]*m/g, '')`: remove every ANSI color escape. -/
def stripAnsi (l : List Char) : List Char :=
  stripAnsiGo l.length l

/-- Split a character list at `'\n'` (JS `s.split('\n')` semantics: the
empty string yields one empty field). -/
def splitOnNl : List Char → List (List Char)
  | [] => [[]]
  | c :: rest =>
    let r := splitOnNl rest
    if c = '\n' then [] :: r
    else
      match r with
      | h :: t => (c :: h) :: t
      | [] => [[c]]

/-- JS `s.split('\n')`. -/
def jsSplitNl (s : String) : List String :=
  (splitOnNl s.data).map String.mk

/-- The three recognized shapes of the companion service's `/activity`
response (frontend.ts 1533–1539); each element of an array shape
contributes `typeof x === 'string' ? x : JSON.stringify(x)`, and the
contributed string is modelled directly. -/
inductive PluginActivityData where
  | arr (lines : List String)
  | withLines (lines : List String)
  | withLogs (lines : List String)
  | other
deriving DecidableEq, Repr

/-- The log lines extracted from the plugin response (`none` = the fetch
threw, caught at line 1528 leaving `data = null`). -/
def pluginLines : Option PluginActivityData → List String
  | some (.arr ls) => ls
  | some (.withLines ls) => ls
  | some (.withLogs ls) => ls
  | some .other => []
  | none => []

/-- The classified event list of the `/activity` handler before the final
window (frontend.ts 1532–1606): plugin lines, CLI fallback when they are
empty (`cliStdout = none` models a rejected exec: `e?.stdout || ''`),
ANSI strip, split on newlines, drop empties, classify per line. -/
def activityEvents (parse : String → Option LogLine)
    (plugin : Option PluginActivityData) (cliStdout : Option String) :
    List TimelineEvent :=
  let lines := pluginLines plugin
  let lines :=
    if lines.isEmpty then
      (jsSplitNl (String.mk (stripAnsi (cliStdout.getD "").data))).filter
        (fun l => l ≠ "")
    else lines
  lines.flatMap (classifyRawWith classifyActivity parse)

/-- JS `array.slice(-n)`: the last `n` elements (all of them when the
array is shorter). -/
def sliceLast (n : Nat) (l : List α) : List α :=
  l.drop (l.length - n)

/-- The `/activity` response body: `events.slice(-30).reverse()`
(frontend.ts 1610), always served with HTTP 200. -/
def activityHandler (parse : String → Option LogLine)
    (plugin : Option PluginActivityData) (cliStdout : Option String) :
    List TimelineEvent :=
  (sliceLast 30 (activityEvents parse plugin cliStdout)).reverse

/-- The frontend-v2 `/activity` handler (src/unnamed/part_002 1368–1378):
serves the activity backend's list, or `[]` when it throws — HTTP 200
either way. -/
def activityV2Handler (activity : Option (List TimelineEvent)) :
    List TimelineEvent :=
  match activity with
  | some a => a
  | none => []

/-! ## Timeline Aggregator — `/timeline-data` of frontend-v2

Source: src/unnamed/part_002 lines 1381–1445.  The handler reads the
sessions file and the cron jobs file, asks the activity backend, pushes
all resulting events into one array, filters by `e.ts >= since` (a JS
string comparison), sorts by parsed timestamp descending (JS `Array.prototype.sort` is
stable; it is modelled by a stable insertion sort, which any stable sort
with the same comparator agrees with), and takes `limit` events.  `Date` is an external builtin and enters as an
oracle; `Math.random().toString()` (used when a session has neither
`sessionId` nor `key`) enters as `rand`, indexed by the session's
position.
-/

/-- The `Date` operations the handler uses. -/
structure DateOracle where
  parseMs : String → Int
  msToIso : Int → String
  strToIso : String → String
  nowIso : String

/-- A record of the sessions file as read by the handler. -/
structure SessionRec where
  sessionId : Option String
  key : Option String
  displayName : Option String
  updatedAt : Option String
deriving DecidableEq, Repr

/-- A record of the cron jobs file as read by the handler
(`lastRunAtMs` is `t.state?.lastRunAtMs`). -/
structure CronJobRec where
  id : String
  name : Option String
  lastRunAtMs : Option Int
deriving DecidableEq, Repr

/-- An event from the activity backend (activity-backend.ts
`ActivityEvent`, the fields the handler reads). -/
structure ActivityRec where
  id : String
  ts : String
  kind : String
  summary : String
deriving DecidableEq, Repr

/-- The activity→timeline kind mapping (part_002 1420–1424). -/
def mapActivityKind (k : String) : String :=
  if k = "session_start" || k = "session_end" then "session"
  else if k = "system" then "alert"
  else k

/-- The `/timeline-data` response body (part_002 1381–1445).  `activity`
is `none` when `listActivity` throws (caught at 1433).  Note the merge
performs no deduplication: all events of all three sources are kept. -/
def timelineDataHandler (o : DateOracle) (rand : Nat → String)
    (sessions : List SessionRec) (jobs : List CronJobRec)
    (activity : Option (List ActivityRec)) (since : String) (limit : Nat) :
    List TimelineEvent :=
  let sessEvents := sessions.mapIdx (fun i s =>
    { id := jsOrOptS s.sessionId (jsOrOptS s.key (rand i))
      ts := match s.updatedAt with
            | some u => if u ≠ "" then o.strToIso u else o.nowIso
            | none => o.nowIso
      kind := "session"
      summary := jsOrOptS s.displayName (jsOrOptS s.key "Session activity")
      level := none : TimelineEvent })
  let cronEvents := jobs.filterMap (fun t =>
    match t.lastRunAtMs with
    | some ms =>
      if ms ≠ 0 then
        some { id := t.id, ts := o.msToIso ms, kind := "cron",
               summary := jsOrOptS t.name "Scheduled task",
               level := none : TimelineEvent }
      else none
    | none => none)
  let actEvents := (activity.getD []).map (fun a =>
    { id := a.id, ts := a.ts, kind := mapActivityKind a.kind,
      summary := a.summary, level := none : TimelineEvent })
  let events := sessEvents ++ cronEvents ++ actEvents
  let filtered := events.filter (fun e => jsStrGe e.ts since)
  let sorted := List.insertionSort (fun a b => o.parseMs b.ts ≤ o.parseMs a.ts) filtered
  sorted.take limit

/-! ## Client-side timeline merge — `loadTimeline`

Source: frontend.ts 424–437 (inline script of the timeline page).  The
fetched events are merged with the cached ones through a JS `Map` keyed
by `id`: `[...cache.events, ...newEvents].forEach(ev => { if (ev && ev.id)
eventMap.set(ev.id, ev); })`.  `Map.set` keeps the position of the first
insertion of a key and overwrites its value, so later occurrences of an
id overwrite earlier ones.  The merged values are then sorted by
timestamp descending and capped at 500.
-/

/-- `Map.set` on an insertion-ordered association list: overwrite in
place, or append a fresh key. -/
def mapSet (m : List (String × TimelineEvent)) (k : String)
    (v : TimelineEvent) : List (String × TimelineEvent) :=
  match m with
  | [] => [(k, v)]
  | (k', v') :: rest =>
    if k' = k then (k', v) :: rest else (k', v') :: mapSet rest k v

/-- The `forEach` loop filling the event map: events without a truthy
`id` are skipped. -/
def insertEvents (m : List (String × TimelineEvent))
    (evs : List TimelineEvent) : List (String × TimelineEvent) :=
  evs.foldl (fun acc ev => if ev.id ≠ "" then mapSet acc ev.id ev else acc) m

/-- The id-deduplicated merge of cached and fresh events
(`Array.from(eventMap.values())`, in `Map` iteration order). -/
def mergeById (cacheEvents newEvents : List TimelineEvent) :
    List TimelineEvent :=
  (insertEvents [] (cacheEvents ++ newEvents)).map (·.2)

/-- The full client-side merge: dedupe, sort by parsed timestamp
descending, cap at 500 (frontend.ts 430–433). -/
def clientLoadTimeline (parseMs : String → Int)
    (cacheEvents newEvents : List TimelineEvent) : List TimelineEvent :=
  (List.insertionSort (fun a b => parseMs b.ts ≤ parseMs a.ts)
    (mergeById cacheEvents newEvents)).take 500

/-! ## `/settings/save` (frontend.ts 1959–1976)

The handler's `try` block only registers the `'data'` and `'end'`
listeners on the request stream — registration cannot throw, and the
block is exited before any data arrives.  The collected body is parsed
inside the `'end'` event callback, so a `JSON.parse` failure there
propagates as an uncaught exception in the event-loop callback: the
`catch` branch writing HTTP 500 `{error}` is unreachable, no response is
written, and `saveLocalSettings` (1427–1429) is never called.
-/

/-- Outcome of a `POST /settings/save` request with the given raw body.
`saved d` = HTTP 200 `{ok:true}` with the settings file replaced
wholesale by `d`; `uncaughtParseError` = the parse threw in the `'end'`
callback: no HTTP response, settings file unchanged. -/
inductive SaveOutcome where
  | saved (data : JsValue)
  | uncaughtParseError

/-- The `/settings/save` handler (`const data = body ? JSON.parse(body)
: {};`); `parseBody` is the external `JSON.parse`, `none` modelling a
thrown `SyntaxError`. -/
def settingsSave (parseBody : String → Option JsValue) (body : String) :
    SaveOutcome :=
  if body = "" then .saved (.obj [])
  else
    match parseBody body with
    | some v => .saved v
    | none => .uncaughtParseError

/-- Lookup in an insertion-ordered association list (used to specify the
client merge). -/
def assocFind (k : String) : List (String × TimelineEvent) → Option TimelineEvent
  | [] => none
  | (k', v) :: rest => if k' = k then some v else assocFind k rest

/-! # Theorems -/

/-! ## C3 — empty-query short-circuit -/

/-- C3: for a request whose query trims to the empty string,
`OfflineSqliteSearchBackend.search` returns the empty list and performs
no engine call at all (`openDb`, `searchItems` and `hybridSearch` are
never invoked — the call trace is empty). -/
theorem C3_empty_query_short_circuit
    (lexEngine : String → Nat → List LexResult)
    (hybEngine : String → Nat → Nat → List HybridResult)
    (req : SearchRequest) (h : jsTrim req.query = "") :
    search lexEngine hybEngine req = ([], []) := by
  simp [search, h]

/-- Witness for C3 at the whitespace-only query `" \t "`. -/
theorem C3_empty_query_short_circuit_witness :
    search (fun _ _ => ([] : List LexResult))
      (fun _ _ _ => ([] : List HybridResult))
      { query := " \t ", mode := none, limit := none, k := none } = ([], []) :=
  C3_empty_query_short_circuit _ _ _ (by decide)

/-! ## C5 — invalid `/settings/save` payload (code bug)

The claim says an invalid JSON body is answered with HTTP 500
`{error: message}`.  The code's `catch` branch indeed writes exactly
that — but it can never run: the `try` only wraps the listener
registration, and `JSON.parse` throws later inside the `'end'` event
callback, escaping as an uncaught exception with no response written
(see `settingsSave`).  The theorem evaluates the model at the failing
input, body `"{"` (invalid JSON, so `JSON.parse` throws). -/

/-- C5: a `POST /settings/save` whose body `"{"` fails to parse ends in
an uncaught exception — no HTTP 500 `{error}` response is produced and
the settings file is untouched. -/
theorem C5_invalid_settings_payload :
    settingsSave (fun _ => none) "\x7b" = .uncaughtParseError := rfl

/-! ## C6 — SearchItem id uniqueness -/

/-- C6: the adapter maps engine rows one-to-one, so whenever the engine's
rows carry pairwise distinct (stringified) ids — they are sqlite primary
keys — the `id`s of the `SearchItem` list returned by one `search` call
are pairwise distinct, in lexical and hybrid mode alike. -/
theorem C6_id_uniqueness
    (lexEngine : String → Nat → List LexResult)
    (hybEngine : String → Nat → Nat → List HybridResult)
    (req : SearchRequest)
    (hl : ∀ q n, ((lexEngine q n).map (fun r => toString r.item.id)).Nodup)
    (hh : ∀ q n k, ((hybEngine q n k).map (fun r => toString r.item.id)).Nodup) :
    ((search lexEngine hybEngine req).1.map SearchItem.id).Nodup := by
  unfold search
  by_cases hq : jsTrim req.query = ""
  · simp [hq]
  · by_cases hm : req.mode.getD "hybrid" = "lexical"
    · simpa [hq, hm, List.map_map, Function.comp, mapLexical] using
        hl (jsTrim req.query) (req.limit.getD 20)
    · simpa [hq, hm, List.map_map, Function.comp, mapHybrid] using
        hh (jsTrim req.query) (req.limit.getD 20) (req.k.getD 80)

/-- Witness for C6: a lexical call over two engine rows with ids 1, 2. -/
theorem C6_id_uniqueness_witness :
    ((search
        (fun _ _ => [⟨⟨1, none, none, none, none, none, none⟩, none, none⟩,
                     ⟨⟨2, none, none, none, none, none, none⟩, none, none⟩])
        (fun _ _ _ => [])
        { query := "q", mode := some "lexical", limit := none, k := none }).1.map
      SearchItem.id).Nodup :=
  C6_id_uniqueness _ _ _ (fun _ _ => by decide) (fun _ _ _ => by decide)

/-! ## C8 — schedule formatting -/

/-- C8: `formatSchedule` renders `{kind:"every", everyMs:600000}` as
`"every 10min"`, `{kind:"cron", expr:"*/30 * * * *"}` as the raw
expression, `{kind:"at", at:"2026-01-01T08:00:00Z"}` as
`"once at 2026-01-01T08:00:00Z"`, and a missing or unrecognized kind as
`"unknown"`. -/
theorem C8_formatSchedule_spec :
    formatSchedule (some ⟨some "every", none, some 600000, none⟩) = "every 10min" ∧
    formatSchedule (some ⟨some "cron", some "*/30 * * * *", none, none⟩) =
      "*/30 * * * *" ∧
    formatSchedule (some ⟨some "at", none, none, some "2026-01-01T08:00:00Z"⟩) =
      "once at 2026-01-01T08:00:00Z" ∧
    formatSchedule none = "unknown" ∧
    (∀ sch : RawSchedule, sch.kind ≠ some "cron" → sch.kind ≠ some "every" →
      sch.kind ≠ some "at" → formatSchedule (some sch) = "unknown") := by
  refine ⟨by decide, by decide, by decide, rfl, ?_⟩
  intro sch h1 h2 h3
  simp [formatSchedule, h1, h2, h3]

/-- Witness for C8 at the unrecognized kind `"banana"`. -/
theorem C8_formatSchedule_spec_witness :
    formatSchedule (some ⟨some "banana", none, none, none⟩) = "unknown" :=
  C8_formatSchedule_spec.2.2.2.2 ⟨some "banana", none, none, none⟩
    (by decide) (by decide) (by decide)

/-! ## C10 — `/activity` window -/

/-- C10: the `/activity` handler answers at most 30 events — precisely
the last 30 classified events in reversed order — and when both the
companion fetch and the CLI fail it still answers a JSON array (the
empty one). -/
theorem C10_activity_window (parse : String → Option LogLine)
    (plugin : Option PluginActivityData) (cliStdout : Option String) :
    (activityHandler parse plugin cliStdout).length ≤ 30 ∧
    activityHandler parse plugin cliStdout =
      (sliceLast 30 (activityEvents parse plugin cliStdout)).reverse ∧
    activityHandler parse none none = [] := by
  refine ⟨?_, rfl, rfl⟩
  unfold activityHandler sliceLast
  rw [List.length_reverse, List.length_drop]
  omega

/-! ## C9 — session cache TTL (corrected)

The cache test is `if (lastSessionsJson && now - lastSessionsAt <
SESSIONS_TTL_MS)`: it checks JS *truthiness* of the cached value, not
its presence.  A successful fetch can store a falsy JSON value — e.g. a
companion response whose body is `null` is stored by line 1458 — and a
request one minute later then re-invokes the upstream sources even
though the cache holds a value stored by a successful fetch within the
TTL.  For truthy cached values (every JSON array or object) the claim's
behaviour holds, and the cache is only (re)written after a successful
fetch.
-/

/-- C9 counterexample: a successful plugin fetch at `t = 0` returns JSON
`null` and stores it in the cache; a second request at `t = 60000`
(within the 15-minute TTL) nevertheless performs an upstream call. -/
theorem C9_session_cache_counterexample :
    sessionsHandler initialSessionsCache 0 (some .null) none =
      (.null, ⟨.null, 0⟩, [.plugin]) ∧
    ((60000 : Int) - 0 < SESSIONS_TTL_MS) ∧
    (sessionsHandler ⟨.null, 0⟩ 60000 (some (.arr [])) none).2.2 = [.plugin] := by
  exact ⟨rfl, by decide, rfl⟩

/-- C9 (amended): if the cached value is truthy (any JSON array or object
is) and was stored less than 15 minutes before `now`, `/sessions` serves
the cache, leaves it unchanged and performs no upstream call; and when
both sources fail the cache is not rewritten (so it only changes after a
successful fetch). -/
theorem C9_session_cache_ttl (st : SessionsCache) (now : Int)
    (plugin cli : Option JsValue)
    (htruthy : jsTruthy st.lastSessionsJson = true)
    (httl : now - st.lastSessionsAt < SESSIONS_TTL_MS) :
    sessionsHandler st now plugin cli = (st.lastSessionsJson, st, []) ∧
    (∀ st' now', (sessionsHandler st' now' none none).2.1 = st') := by
  constructor
  · simp [sessionsHandler, htruthy, httl]
  · intro st' now'
    unfold sessionsHandler
    split <;> rfl

/-- Witness for C9 (amended): a truthy cached session list one
millisecond old is served with no upstream call. -/
theorem C9_session_cache_ttl_witness :
    sessionsHandler ⟨.arr [.str "s1"], 0⟩ 1 (some .null) (some .null) =
      (.arr [.str "s1"], ⟨.arr [.str "s1"], 0⟩, []) :=
  (C9_session_cache_ttl ⟨.arr [.str "s1"], 0⟩ 1 (some .null) (some .null)
    rfl (by decide)).1

/-! ## C4 — best-effort failure policy (corrected)

`/sessions` (frontend.ts 1476–1480) and `/activity` (both servers)
answer HTTP 200 with an empty list when every source fails — but the
`/tasks` handler does not: its CLI-fallback `catch` (frontend.ts
1648–1652) sets status **500** with `{error: message}`. -/

/-- C4 counterexample: with the companion fetch and the CLI both
failing, `/tasks` answers the HTTP 500 error response, not an empty
200 list. -/
theorem C4_tasks_error_counterexample :
    tasksHandler (.error "plugin down") (.error "cli down") = .err "cli down" ∧
    TasksResp.err "cli down" ≠ .okPlugin [] ∧
    TasksResp.err "cli down" ≠ .okCli [] := by
  exact ⟨rfl, by decide, by decide⟩

/-- C4 (amended): when both the companion fetch and the CLI fail, the
sessions handler (when it consults the sources at all, i.e. on a cache
miss) and both activity handlers answer HTTP 200 with an empty list,
while the tasks handler answers HTTP 500 with
`{error: e?.message || err?.message || 'tasks failed'}`. -/
theorem C4_best_effort_policy (st : SessionsCache) (now : Int)
    (hmiss : ¬(jsTruthy st.lastSessionsJson = true ∧
      now - st.lastSessionsAt < SESSIONS_TTL_MS)) :
    sessionsHandler st now none none = (.arr [], st, [.plugin, .cli]) ∧
    (∀ parse : String → Option LogLine, activityHandler parse none none = []) ∧
    activityV2Handler none = [] ∧
    (∀ perr cerr, tasksHandler (.error perr) (.error cerr) =
      .err (jsOrS cerr (jsOrS perr "tasks failed"))) := by
  refine ⟨?_, fun _ => rfl, rfl, fun _ _ => rfl⟩
  unfold sessionsHandler
  rw [if_neg]
  simp only [Bool.and_eq_true, decide_eq_true_eq]
  exact fun h => hmiss h

/-- Witness for C4 (amended) at the initial (empty) cache state. -/
theorem C4_best_effort_policy_witness :
    sessionsHandler initialSessionsCache 0 none none =
      (.arr [], initialSessionsCache, [.plugin, .cli]) :=
  (C4_best_effort_policy initialSessionsCache 0 (by simp [initialSessionsCache, jsTruthy])).1

/-! ## C2 — snippet normalization -/

/-- C2: when the whitespace-collapsed, trimmed text exceeds 220
characters, `buildSnippet` yields exactly 221 characters (220 plus the
appended ellipsis character, so in particular at most 221) ending in
`'…'`; otherwise it yields the collapsed/trimmed text unchanged.  The
lexical and hybrid row mappings both produce their `snippet` field as
`buildSnippet` of the row's text, so the construction is identical in
the two code paths. -/
theorem C2_snippet_normalization (text : String) (rl : LexResult)
    (rh : HybridResult) :
    (220 < (singleLineOf text).length →
      (buildSnippet text).length = 221 ∧
      (buildSnippet text).data.getLast? = some '…') ∧
    ((singleLineOf text).length ≤ 220 → buildSnippet text = singleLineOf text) ∧
    (mapLexical rl).snippet = buildSnippet (rl.item.text.getD "") ∧
    (mapHybrid rh).snippet = buildSnippet (rh.item.text.getD "") := by
  refine ⟨?_, ?_, rfl, rfl⟩
  · intro h
    have hnot : ¬(singleLineOf text).length ≤ 220 := not_le.mpr h
    constructor
    · simp only [buildSnippet, if_neg hnot]
      rw [String.length_append]
      have h1 : (jsSlice0 (singleLineOf text) 220).length = 220 := by
        simp only [jsSlice0, String.length]
        rw [List.length_take]
        have : 220 < (singleLineOf text).data.length := h
        omega
      rw [h1]
      rfl
    · simp only [buildSnippet, if_neg hnot]
      have hdata : (jsSlice0 (singleLineOf text) 220 ++ "…").data =
          (singleLineOf text).data.take 220 ++ ['…'] := rfl
      rw [hdata, List.getLast?_concat]
  · intro h
    simp only [buildSnippet, if_pos h]

set_option maxRecDepth 40000 in
/-- Witness for C2: a 230-character word is cut to 221 characters ending
in `'…'`; a short text is only whitespace-collapsed. -/
theorem C2_snippet_normalization_witness :
    (buildSnippet (String.mk (List.replicate 230 'a'))).length = 221 ∧
    (buildSnippet (String.mk (List.replicate 230 'a'))).data.getLast? = some '…' ∧
    buildSnippet " a  b " = singleLineOf " a  b " := by
  refine ⟨?_, ?_, ?_⟩
  · exact ((C2_snippet_normalization (String.mk (List.replicate 230 'a'))
      ⟨⟨0, none, none, none, none, none, none⟩, none, none⟩
      ⟨⟨0, none, none, none, none, none, none⟩, none, none, none⟩).1 (by decide)).1
  · exact ((C2_snippet_normalization (String.mk (List.replicate 230 'a'))
      ⟨⟨0, none, none, none, none, none, none⟩, none, none⟩
      ⟨⟨0, none, none, none, none, none, none⟩, none, none, none⟩).1 (by decide)).2
  · exact (C2_snippet_normalization " a  b "
      ⟨⟨0, none, none, none, none, none, none⟩, none, none⟩
      ⟨⟨0, none, none, none, none, none, none⟩, none, none, none⟩).2.1 (by decide)

/-! ## C7 — log-line classifier -/

/-- C7: the classifier is a total function of the line (determinism and
totality are by construction).  A `subsystem="cron"` /
`message="cron job X ran"` / `level="info"` line yields exactly one
event, of kind `"cron"`; any `level="warn"` line whose message does not
contain the benign version-mismatch string and that matches no earlier
rule yields the kind-`"alert"` event; a line whose `JSON.parse` fails
yields zero events (and, the function being total, no exception), as
does any line not starting with `'{'`. -/
theorem C7_log_classifier :
    (classifyTimeline
      { type := some "log", time := "2026-02-03T04:05:06.000Z",
        subsystem := some "cron", message := some "cron job X ran",
        level := some "info" } =
      [{ id := "2026-02-03T04:05:06.000Z-cron",
         ts := "2026-02-03T04:05:06.000Z", kind := "cron",
         summary := "cron job X ran", level := some "info" }]) ∧
    (∀ l : LogLine, l.type = some "log" →
      jsOrOptS l.level "debug" = "warn" →
      jsIncludes (jsOrOptS l.message "") benignMsg = false →
      ¬(jsOrOptS l.subsystem "" = "agent/embedded" ∧
        jsIncludes (jsOrOptS l.message "") "tool " = true) →
      ¬(jsOrOptS l.subsystem "" = "diagnostic" ∧
        jsIncludes (jsOrOptS l.message "") "session state" = true) →
      jsOrOptS l.subsystem "" ≠ "memory" →
      jsIncludes (jsOrOptS l.message "") "memory" = false →
      jsIncludes (jsOrOptS l.message "") "Memory" = false →
      jsOrOptS l.subsystem "" ≠ "cron" →
      jsIncludes (jsOrOptS l.message "") "cron" = false →
      classifyTimeline l =
        [{ id := l.time ++ "-alert", ts := l.time, kind := "alert",
           summary := jsSlice0 (jsOrOptS l.message "") 80,
           level := some "warn" }]) ∧
    (∀ (parse : String → Option LogLine) (line : String), parse line = none →
      classifyRawWith classifyTimeline parse line = []) ∧
    (∀ parse : String → Option LogLine,
      classifyRawWith classifyTimeline parse "openclaw: log follows" = []) := by
  refine ⟨by decide, ?_, ?_, ?_⟩
  · intro l htype hlevel hben h1 h2 h3 h4 h5 h6 h7
    have e1 : (decide (jsOrOptS l.subsystem "" = "agent/embedded") &&
        jsIncludes (jsOrOptS l.message "") "tool ") ≠ true := by
      simp only [ne_eq, Bool.and_eq_true, decide_eq_true_eq]
      exact fun hc => h1 hc
    have e2 : (decide (jsOrOptS l.subsystem "" = "diagnostic") &&
        jsIncludes (jsOrOptS l.message "") "session state") ≠ true := by
      simp only [ne_eq, Bool.and_eq_true, decide_eq_true_eq]
      exact fun hc => h2 hc
    have e3 : (decide (jsOrOptS l.subsystem "" = "memory") ||
        jsIncludes (jsOrOptS l.message "") "memory" ||
        jsIncludes (jsOrOptS l.message "") "Memory") ≠ true := by
      simp [h3, h4, h5]
    have e4 : (decide (jsOrOptS l.subsystem "" = "cron") ||
        jsIncludes (jsOrOptS l.message "") "cron") ≠ true := by
      simp [h6, h7]
    simp only [classifyTimeline, htype, hlevel]
    rw [if_neg (by simp), if_neg e1, if_neg e2, if_neg e3, if_neg e4,
      if_pos (by simp [hben])]
  · intro parse line h
    unfold classifyRawWith
    split
    · rfl
    · rw [h]
  · intro parse
    unfold classifyRawWith
    rw [if_pos (by decide)]

/-- Witness for C7: a concrete warn line classifies as the single alert
event, and a line that fails to parse yields no events. -/
theorem C7_log_classifier_witness :
    classifyTimeline
      { type := some "log", time := "t2", subsystem := some "api",
        message := some "request failed", level := some "warn" } =
      [{ id := "t2-alert", ts := "t2", kind := "alert",
         summary := "request failed", level := some "warn" }] ∧
    classifyRawWith classifyTimeline (fun _ => none) "\x7bbad json" = [] :=
  ⟨C7_log_classifier.2.1 _ rfl (by decide) (by decide) (by decide) (by decide)
    (by decide) (by decide) (by decide) (by decide) (by decide),
   C7_log_classifier.2.2.1 _ _ rfl⟩

/-! ## C1 — timeline dedupe

Helper lemmas about the `Map`-based client merge: `mapSet` keeps keys
unique, every stored value's `id` equals its key, and looking a key up
after inserting a batch of events returns the batch's last occurrence of
that key.
-/

theorem mapSet_find_self (m : List (String × TimelineEvent)) (k : String)
    (v : TimelineEvent) : assocFind k (mapSet m k v) = some v := by
  induction m with
  | nil => simp [mapSet, assocFind]
  | cons p rest ih =>
    obtain ⟨k', v'⟩ := p
    by_cases h : k' = k
    · simp [mapSet, assocFind, h]
    · simp [mapSet, assocFind, h, ih]

theorem mapSet_find_other (m : List (String × TimelineEvent)) (k k' : String)
    (v : TimelineEvent) (h : k' ≠ k) :
    assocFind k' (mapSet m k v) = assocFind k' m := by
  induction m with
  | nil =>
    simp only [mapSet, assocFind]
    rw [if_neg (fun hh => h hh.symm)]
  | cons p rest ih =>
    obtain ⟨k0, v0⟩ := p
    by_cases h0 : k0 = k
    · simp only [mapSet, if_pos h0, assocFind]
      rw [if_neg (fun hh => h (hh.symm.trans h0)),
        if_neg (fun hh => h (hh.symm.trans h0))]
    · simp only [mapSet, if_neg h0, assocFind]
      by_cases h1 : k0 = k'
      · rw [if_pos h1, if_pos h1]
      · rw [if_neg h1, if_neg h1, ih]

theorem mapSet_mem_keys (m : List (String × TimelineEvent)) (k a : String)
    (v : TimelineEvent) :
    a ∈ (mapSet m k v).map Prod.fst ↔ a ∈ m.map Prod.fst ∨ a = k := by
  induction m with
  | nil => simp [mapSet]
  | cons p rest ih =>
    obtain ⟨k0, v0⟩ := p
    by_cases h0 : k0 = k
    · subst h0
      simp [mapSet]
      tauto
    · simp [mapSet, h0, ih]
      tauto

theorem mapSet_keys_nodup (m : List (String × TimelineEvent)) (k : String)
    (v : TimelineEvent) (h : (m.map Prod.fst).Nodup) :
    ((mapSet m k v).map Prod.fst).Nodup := by
  induction m with
  | nil => simp [mapSet]
  | cons p rest ih =>
    obtain ⟨k0, v0⟩ := p
    simp only [List.map_cons, List.nodup_cons] at h
    by_cases h0 : k0 = k
    · subst h0
      simpa [mapSet] using h
    · simp only [mapSet, if_neg h0, List.map_cons, List.nodup_cons]
      refine ⟨?_, ih h.2⟩
      rw [mapSet_mem_keys]
      rintro (hmem | hk)
      · exact h.1 hmem
      · exact h0 hk

theorem mapSet_id_inv (m : List (String × TimelineEvent)) (k : String)
    (v : TimelineEvent) (hm : ∀ p ∈ m, (Prod.snd p).id = Prod.fst p)
    (hv : v.id = k) : ∀ p ∈ mapSet m k v, (Prod.snd p).id = Prod.fst p := by
  induction m with
  | nil => simpa [mapSet] using hv
  | cons q rest ih =>
    obtain ⟨k0, v0⟩ := q
    intro p hp
    by_cases h0 : k0 = k
    · subst h0
      simp only [mapSet, if_pos rfl] at hp
      rcases List.mem_cons.mp hp with h | h
      · subst h; exact hv
      · exact hm _ (List.mem_cons_of_mem _ h)
    · simp only [mapSet, if_neg h0] at hp
      rcases List.mem_cons.mp hp with h | h
      · subst h; exact hm _ (List.mem_cons_self _ _)
      · exact ih (fun q hq => hm q (List.mem_cons_of_mem _ hq)) _ h

theorem insertEvents_find (k : String) (hk : k ≠ "") (evs : List TimelineEvent) :
    ∀ m, assocFind k (insertEvents m evs) =
      match (evs.filter (fun e => decide (e.id = k))).getLast? with
      | some v => some v
      | none => assocFind k m := by
  induction evs with
  | nil => intro m; simp [insertEvents]
  | cons e rest ih =>
    intro m
    have hstep : insertEvents m (e :: rest) =
        insertEvents (if e.id ≠ "" then mapSet m e.id e else m) rest := by
      simp [insertEvents]
    rw [hstep, List.filter_cons]
    by_cases he : e.id = k
    · have hne : e.id ≠ "" := by rw [he]; exact hk
      have hfilt : decide (e.id = k) = true := by simp [he]
      rw [if_pos hne, if_pos hfilt, he, ih (mapSet m k e)]
      rcases hlast : (rest.filter (fun e => decide (e.id = k))).getLast? with _ | v
      · have hnil : rest.filter (fun e => decide (e.id = k)) = [] :=
          List.getLast?_eq_none_iff.mp hlast
        simp [hnil, hlast, mapSet_find_self]
      · have hne2 : rest.filter (fun e => decide (e.id = k)) ≠ [] := by
          intro hc; rw [hc] at hlast; cases hlast
        rcases List.exists_cons_of_ne_nil hne2 with ⟨b, t, hbt⟩
        rw [hbt, List.getLast?_cons_cons, ← hbt, hlast]
    · have hfilt : ¬(decide (e.id = k) = true) := by simp [he]
      rw [if_neg hfilt]
      by_cases hne : e.id = ""
      · have hcond : ¬(e.id ≠ "") := fun hc => hc hne
        rw [if_neg hcond, ih m]
      · rw [if_pos hne, ih (mapSet m e.id e)]
        rcases hlast : (rest.filter (fun e => decide (e.id = k))).getLast? with _ | v
        · simp only [hlast]
          exact mapSet_find_other m e.id k e (fun hc => he hc.symm)
        · simp only [hlast]

theorem insertEvents_keys_nodup (evs : List TimelineEvent) :
    ∀ m, (m.map Prod.fst).Nodup → ((insertEvents m evs).map Prod.fst).Nodup := by
  induction evs with
  | nil => intro m h; simpa [insertEvents] using h
  | cons e rest ih =>
    intro m h
    have hstep : insertEvents m (e :: rest) =
        insertEvents (if e.id ≠ "" then mapSet m e.id e else m) rest := by
      simp [insertEvents]
    rw [hstep]
    by_cases hne : e.id = ""
    · rw [if_neg (by simp [hne])]
      exact ih m h
    · rw [if_pos hne]
      exact ih _ (mapSet_keys_nodup m e.id e h)

theorem insertEvents_id_inv (evs : List TimelineEvent) :
    ∀ m, (∀ p ∈ m, (Prod.snd p).id = Prod.fst p) →
      ∀ p ∈ insertEvents m evs, (Prod.snd p).id = Prod.fst p := by
  induction evs with
  | nil => intro m h; simpa [insertEvents] using h
  | cons e rest ih =>
    intro m h
    have hstep : insertEvents m (e :: rest) =
        insertEvents (if e.id ≠ "" then mapSet m e.id e else m) rest := by
      simp [insertEvents]
    rw [hstep]
    by_cases hne : e.id = ""
    · rw [if_neg (by simp [hne])]
      exact ih m h
    · rw [if_pos hne]
      exact ih _ (mapSet_id_inv m e.id e h rfl)

theorem assoc_values_filter (k : String) :
    ∀ m : List (String × TimelineEvent), (m.map Prod.fst).Nodup →
      (∀ p ∈ m, (Prod.snd p).id = Prod.fst p) →
      (m.map Prod.snd).filter (fun e => decide (e.id = k)) =
        (assocFind k m).toList := by
  intro m
  induction m with
  | nil => intro _ _; simp [assocFind]
  | cons p rest ih =>
    intro hnd hid
    obtain ⟨k0, v⟩ := p
    have hv : v.id = k0 := hid (k0, v) (List.mem_cons_self _ _)
    simp only [List.map_cons, List.nodup_cons] at hnd
    by_cases h0 : k0 = k
    · subst h0
      have hrest : (rest.map Prod.snd).filter (fun e => decide (e.id = k0)) = [] := by
        rw [List.filter_eq_nil_iff]
        intro e he
        simp only [decide_eq_true_eq]
        intro hek
        rcases List.mem_map.mp he with ⟨q, hq, hqe⟩
        have hqid : (Prod.snd q).id = Prod.fst q :=
          hid q (List.mem_cons_of_mem _ hq)
        apply hnd.1
        have hqk : Prod.fst q = k0 := by rw [← hqid, hqe, hek]
        rw [← hqk]
        exact List.mem_map.mpr ⟨q, hq, rfl⟩
      simp [assocFind, List.filter_cons, hv, hrest]
    · simp only [List.map_cons, List.filter_cons, hv]
      rw [if_neg (by simpa using h0)]
      simp only [assocFind, if_neg h0]
      exact ih hnd.2 (fun q hq => hid q (List.mem_cons_of_mem _ hq))

/-- C1 counterexample: the frontend-v2 `/timeline-data` handler performs
no deduplication.  A cron job with id `"X"` (summary `"task ran"`) and an
activity event with the same id `"X"` but a different summary
(`"other summary"`) both survive into the response: the output contains
two events with id `"X"`, not one. -/
theorem C1_no_server_dedupe_counterexample :
    ((timelineDataHandler
        { parseMs := fun _ => 0, msToIso := fun _ => "2026-01-03T00:00:00.000Z",
          strToIso := fun s => s, nowIso := "2026-01-04T00:00:00.000Z" }
        (fun _ => "r")
        []
        [⟨"X", some "task ran", some 1000⟩]
        (some [⟨"X", "2026-01-02T00:00:00.000Z", "tool", "other summary"⟩])
        "2026-01-01" 100).countP (fun e => decide (e.id = "X"))) = 2 := by
  decide

/-- C1 (amended): the id-keyed last-write-wins dedupe holds for the
client-side `loadTimeline` merge, not for the server handler.  For any
non-empty id `k`, the merged list's events with id `k` are exactly the
*last* occurrence of `k` in merge order (cached events first, freshly
fetched events second) — in particular there is exactly one such event
whenever the inputs contain the id at all, and it is the later-merged
one. -/
theorem C1_client_merge_dedupe (cacheEvents newEvents : List TimelineEvent)
    (k : String) (hk : k ≠ "") :
    (mergeById cacheEvents newEvents).filter (fun e => decide (e.id = k)) =
      (((cacheEvents ++ newEvents).filter
        (fun e => decide (e.id = k))).getLast?).toList := by
  unfold mergeById
  have h1 := assoc_values_filter k (insertEvents [] (cacheEvents ++ newEvents))
    (insertEvents_keys_nodup _ [] (by simp))
    (insertEvents_id_inv _ [] (by simp))
  have h2 := insertEvents_find k hk (cacheEvents ++ newEvents) []
  have h3 : (match (List.filter (fun e => decide (e.id = k))
        (cacheEvents ++ newEvents)).getLast? with
      | some v => some v
      | none => assocFind k ([] : List (String × TimelineEvent))) =
      (List.filter (fun e => decide (e.id = k))
        (cacheEvents ++ newEvents)).getLast? := by
    cases (List.filter (fun e => decide (e.id = k))
      (cacheEvents ++ newEvents)).getLast? <;> rfl
  show ((insertEvents [] (cacheEvents ++ newEvents)).map Prod.snd).filter
      (fun e => decide (e.id = k)) = _
  rw [h1, h2, h3]

/-- Witness for C1 (amended): merging a cached event with id `"X"` with a
freshly fetched event with the same id keeps exactly the fresh one. -/
theorem C1_client_merge_dedupe_witness :
    (mergeById ([⟨"X", "t1", "cron", "old summary", none⟩] : List TimelineEvent)
        ([⟨"X", "t2", "tool", "new summary", none⟩] : List TimelineEvent)).filter
      (fun e => decide (e.id = "X")) =
      (((([⟨"X", "t1", "cron", "old summary", none⟩] : List TimelineEvent) ++
          ([⟨"X", "t2", "tool", "new summary", none⟩] : List TimelineEvent)).filter
        (fun e => decide (e.id = "X"))).getLast?).toList :=
  C1_client_merge_dedupe [⟨"X", "t1", "cron", "old summary", none⟩]
    [⟨"X", "t2", "tool", "new summary", none⟩] "X" (by decide)

end ClawScope
